import Mathlib

/-!
# Verification of the HPCSimSite telemetry enrichment and control-loop core

A shallow embedding, in Lean 4, of the parts of the `HPCSimSite` repository
covered by the design specification: the telemetry normalization adapter
(`hpcsim/adapter.py`), the enrichment ingest endpoint (`hpcsim/api.py`), the
telemetry history buffer (`ai_intelligence_layer/utils/telemetry_buffer.py`),
the strategy validator (`ai_intelligence_layer/utils/validators.py`), the
resilient generation client (`ai_intelligence_layer/services/gemini_client.py`),
the strategy generator (`ai_intelligence_layer/services/strategy_generator.py`),
the control-command synthesizer and the websocket session loop
(`ai_intelligence_layer/main.py`), and the stateful tire-degradation metric of
the legacy enricher (`hpcsim/enrichment.py`).

Python machine floats are modelled as rationals (`ℚ`), Python ints as `ℤ`,
Python strings as `List Char`, and JSON values by an inductive `Json` type.
Stateful code is modelled by explicit state passing; code that can raise is
modelled with `Option`/`Except`.
-/

namespace HPCSim

/-! ## Python string primitives

Strings are `List Char`.  `pyStrip` models `str.strip()` (for the ASCII
whitespace that occurs in this code base), `pyStartsWith`/`pyEndsWith` model
`str.startswith`/`str.endswith`, and list `drop`/`dropLast` model slicing
`text[n:]` / `text[:-n]`. -/

/-- Characters removed by Python `str.strip()` (ASCII whitespace). -/
def pyWs (c : Char) : Bool :=
  c = ' ' || c = '\t' || c = '\n' || c = '\r' || c = '\x0b' || c = '\x0c'

/-- Whitespace skipped by Python `json.loads` between tokens. -/
def jsonWs (c : Char) : Bool :=
  c = ' ' || c = '\t' || c = '\n' || c = '\r'

/-- `str.strip()`: drop leading and trailing whitespace. -/
def pyStrip (s : List Char) : List Char :=
  (((s.dropWhile pyWs).reverse.dropWhile pyWs)).reverse

/-- `str.startswith(p)`. -/
def pyStartsWith (s p : List Char) : Bool :=
  p.isPrefixOf s

/-- `str.endswith(p)`. -/
def pyEndsWith (s p : List Char) : Bool :=
  p.isSuffixOf s

/-! ## JSON values and `json.loads`

`Json` models the values produced by Python's `json` module.  Numbers are kept
as rationals (every JSON numeral denotes a rational).  The parser below is a
fuel-based recursive-descent parser for the JSON grammar accepted by
`json.loads`: it skips the four JSON whitespace characters between tokens and
fails on trailing non-whitespace input. -/

inductive Json : Type where
  | null : Json
  | bool (b : Bool) : Json
  | num (q : ℚ) : Json
  | str (s : List Char) : Json
  | arr (elems : List Json) : Json
  | obj (fields : List (List Char × Json)) : Json

/-- Skip JSON inter-token whitespace. -/
def skipJsonWs (s : List Char) : List Char :=
  s.dropWhile jsonWs

/-- Digit character to its value. -/
def digitVal (c : Char) : ℕ := c.toNat - '0'.toNat

/-- Read a run of decimal digits, returning their value, count, and the rest. -/
def readDigits : List Char → ℕ → ℕ → ℕ × ℕ × List Char
  | [], acc, n => (acc, n, [])
  | c :: rest, acc, n =>
    if c.isDigit then readDigits rest (10 * acc + digitVal c) (n + 1)
    else (acc, n, c :: rest)

/-- Parse a JSON numeral `-? int frac? exp?` starting at the head of the
input.  Returns the rational value and the remaining input. -/
def parseNumber (s : List Char) : Option (ℚ × List Char) :=
  let (neg, s₁) := match s with
    | '-' :: rest => (true, rest)
    | _ => (false, s)
  let (ip, icount, s₂) := readDigits s₁ 0 0
  if icount = 0 then none else
  let (frac, fcount, s₃) := match s₂ with
    | '.' :: rest =>
      let (f, fc, r) := readDigits rest 0 0
      (f, fc, r)
    | _ => (0, 0, s₂)
  if s₂ ≠ [] ∧ s₂.head? = some '.' ∧ fcount = 0 then none else
  let mantNum : ℤ := (ip * 10 ^ fcount + frac : ℕ)
  let signed : ℤ := if neg then -mantNum else mantNum
  let expPart : Option (List Char) := match s₃ with
    | 'e' :: rest => some rest
    | 'E' :: rest => some rest
    | _ => none
  match expPart with
  | none => some (mkRat signed (10 ^ fcount), s₃)
  | some rest =>
    let (eneg, r₁) := match rest with
      | '-' :: r => (true, r)
      | '+' :: r => (false, r)
      | _ => (false, rest)
    let (e, ecount, r₂) := readDigits r₁ 0 0
    if ecount = 0 then none else
    let v := if eneg then mkRat signed (10 ^ fcount * 10 ^ e)
             else mkRat (signed * 10 ^ e) (10 ^ fcount)
    some (v, r₂)

/-- Hexadecimal digit test. -/
def isHexChar (c : Char) : Bool :=
  c.isDigit || ('a' ≤ c && c ≤ 'f') || ('A' ≤ c && c ≤ 'F')

/-- Hexadecimal digit value. -/
def hexVal (c : Char) : ℕ :=
  if c.isDigit then digitVal c
  else if 'a' ≤ c && c ≤ 'f' then c.toNat - 'a'.toNat + 10
  else c.toNat - 'A'.toNat + 10

/-- Decode one string-escape character (after a backslash). -/
def unescapeChar (c : Char) : Char :=
  if c = 'n' then '\n'
  else if c = 't' then '\t'
  else if c = 'r' then '\r'
  else if c = 'b' then '\x08'
  else if c = 'f' then '\x0c'
  else c

/-- Parse the body of a JSON string (after the opening quote), with fuel. -/
def parseStringBody : ℕ → List Char → Option (List Char × List Char)
  | 0, _ => none
  | _, [] => none
  | fuel + 1, c :: rest =>
    if c = '"' then some ([], rest)
    else if c = '\\' then
      match rest with
      | [] => none
      | 'u' :: a :: b :: cc :: d :: rest' =>
        if isHexChar a ∧ isHexChar b ∧ isHexChar cc ∧ isHexChar d then
          match parseStringBody fuel rest' with
          | some (body, rem) =>
            some (Char.ofNat (4096 * hexVal a + 256 * hexVal b + 16 * hexVal cc + hexVal d) :: body, rem)
          | none => none
        else none
      | e :: rest' =>
        match parseStringBody fuel rest' with
        | some (body, rem) => some (unescapeChar e :: body, rem)
        | none => none
    else
      match parseStringBody fuel rest with
      | some (body, rem) => some (c :: body, rem)
      | none => none

mutual

/-- Parse one JSON value at the head of the input (fuel-based). -/
def parseValue : ℕ → List Char → Option (Json × List Char)
  | 0, _ => none
  | _, [] => none
  | fuel + 1, c :: rest =>
    if c = 'n' then
      match rest with
      | 'u' :: 'l' :: 'l' :: r => some (.null, r)
      | _ => none
    else if c = 't' then
      match rest with
      | 'r' :: 'u' :: 'e' :: r => some (.bool true, r)
      | _ => none
    else if c = 'f' then
      match rest with
      | 'a' :: 'l' :: 's' :: 'e' :: r => some (.bool false, r)
      | _ => none
    else if c = '"' then
      match parseStringBody (fuel + 1) rest with
      | some (body, rem) => some (.str body, rem)
      | none => none
    else if c = '[' then
      match skipJsonWs rest with
      | ']' :: r => some (.arr [], r)
      | r => match parseElems fuel r with
        | some (elems, rem) => some (.arr elems, rem)
        | none => none
    else if c = '\x7b' then
      match skipJsonWs rest with
      | '\x7d' :: r => some (.obj [], r)
      | r => match parseMembers fuel r with
        | some (fields, rem) => some (.obj fields, rem)
        | none => none
    else if c = '-' ∨ c.isDigit then
      match parseNumber (c :: rest) with
      | some (q, rem) => some (.num q, rem)
      | none => none
    else none

/-- Parse comma-separated array elements up to the closing bracket. -/
def parseElems : ℕ → List Char → Option (List Json × List Char)
  | 0, _ => none
  | fuel + 1, s =>
    match parseValue fuel (skipJsonWs s) with
    | none => none
    | some (v, rem) =>
      match skipJsonWs rem with
      | ',' :: r =>
        match parseElems fuel r with
        | some (vs, rem') => some (v :: vs, rem')
        | none => none
      | ']' :: r => some ([v], r)
      | _ => none

/-- Parse comma-separated object members up to the closing brace. -/
def parseMembers : ℕ → List Char → Option (List (List Char × Json) × List Char)
  | 0, _ => none
  | fuel + 1, s =>
    match skipJsonWs s with
    | '"' :: rest =>
      match parseStringBody (fuel + 1) rest with
      | none => none
      | some (key, rem) =>
        match skipJsonWs rem with
        | ':' :: r =>
          match parseValue fuel (skipJsonWs r) with
          | none => none
          | some (v, rem') =>
            match skipJsonWs rem' with
            | ',' :: r' =>
              match parseMembers fuel r' with
              | some (fs, rem'') => some ((key, v) :: fs, rem'')
              | none => none
            | '\x7d' :: r' => some ([(key, v)], r')
            | _ => none
        | _ => none
    | _ => none

end

/-- The backquote character (code point 96), the fence delimiter. -/
def backquoteChar : Char := Char.ofNat 96

/-- The characters that can begin a JSON value (the dispatch set of
`parseValue`). -/
def startChar (c : Char) : Bool :=
  c = 'n' || c = 't' || c = 'f' || c = '"' || c = '[' || c = '\x7b' || c = '-' || c.isDigit

/-- `json.loads`: parse a complete JSON document; trailing input other than
whitespace is an error.  A document must begin with a value start character
(stated explicitly here; `parseValue`'s dispatch falls through to `none` on
any other head anyway). -/
def jsonLoads (s : List Char) : Option Json :=
  match skipJsonWs s with
  | [] => none
  | c :: rest =>
    if startChar c = false then none
    else
      match parseValue ((c :: rest).length + 1) (c :: rest) with
      | some (v, rem) => if skipJsonWs rem = [] then some v else none
      | none => none

/-! ## `GeminiClient._parse_json` (gemini_client.py, lines 120–145)

The client strips an incidental markdown code fence before structural parsing:
strip whitespace; if the text starts with ` ```json ` drop 7 characters; if it
(then) starts with ` ``` ` drop 3; if it ends with ` ``` ` drop the last 3;
strip again; `json.loads` the result. -/

/-- Python slice `text[:-n]`: drop the last `n` characters. -/
def pyDropRight (n : ℕ) (s : List Char) : List Char :=
  s.take (s.length - n)

/-- The code-fence preprocessing performed by `_parse_json` before `json.loads`. -/
def stripCodeFence (text : List Char) : List Char :=
  let t0 := pyStrip text
  let t1 := if pyStartsWith t0 ("```json".toList) then t0.drop 7 else t0
  let t2 := if pyStartsWith t1 ("```".toList) then t1.drop 3 else t1
  let t3 := if pyEndsWith t2 ("```".toList) then pyDropRight 3 t2 else t2
  pyStrip t3

/-- `GeminiClient._parse_json`: fence stripping followed by `json.loads`.
`none` models the raised `json.JSONDecodeError`. -/
def parsePyJson (text : List Char) : Option Json :=
  jsonLoads (stripCodeFence text)

/-! ## Python value coercions used by the adapter

`pyFloat` models `float(x)` (returning `none` where Python raises
`TypeError`/`ValueError`), `pyInt` models `int(x)`, `pyTruthy` models `bool(x)`.
For string arguments, the numeric grammars accepted are the usual
sign/digits/point/exponent forms; Python's `inf`/`nan` spellings and digit
underscores are not modelled (no claim depends on them). -/

/-- Truncation toward zero, as Python's `int(float)`. -/
def pyTrunc (q : ℚ) : ℤ := Int.tdiv q.num q.den

/-- Parse a float literal string, as accepted by Python `float(str)`:
optional surrounding whitespace, optional sign, digits with optional decimal
point and optional exponent; at least one digit overall. -/
def pyParseFloat (s : List Char) : Option ℚ :=
  let t := pyStrip s
  let (neg, t₁) := match t with
    | '-' :: r => (true, r)
    | '+' :: r => (false, r)
    | _ => (false, t)
  let (ip, icount, t₂) := readDigits t₁ 0 0
  let (frac, fcount, t₃) := match t₂ with
    | '.' :: r =>
      let (f, fc, r') := readDigits r 0 0
      (f, fc, r')
    | _ => (0, 0, t₂)
  if icount + fcount = 0 then none else
  let mantNum : ℤ := (ip * 10 ^ fcount + frac : ℕ)
  let signed : ℤ := if neg then -mantNum else mantNum
  match t₃ with
  | [] => some (mkRat signed (10 ^ fcount))
  | e :: r =>
    if e = 'e' ∨ e = 'E' then
      let (eneg, r₁) := match r with
        | '-' :: r' => (true, r')
        | '+' :: r' => (false, r')
        | _ => (false, r)
      let (ex, ecount, r₂) := readDigits r₁ 0 0
      if ecount = 0 ∨ r₂ ≠ [] then none else
      some (if eneg then mkRat signed (10 ^ fcount * 10 ^ ex)
            else mkRat (signed * 10 ^ ex) (10 ^ fcount))
    else none

/-- Parse an integer literal string, as accepted by Python `int(str)`. -/
def pyParseInt (s : List Char) : Option ℤ :=
  let t := pyStrip s
  let (neg, t₁) := match t with
    | '-' :: r => (true, r)
    | '+' :: r => (false, r)
    | _ => (false, t)
  let (ip, icount, t₂) := readDigits t₁ 0 0
  if icount = 0 ∨ t₂ ≠ [] then none
  else some (if neg then -(ip : ℤ) else (ip : ℤ))

/-- `float(x)` on a JSON value; `none` models a raised conversion error. -/
def pyFloat : Json → Option ℚ
  | .num q => some q
  | .bool b => some (if b then 1 else 0)
  | .str s => pyParseFloat s
  | _ => none

/-- `int(x)` on a JSON value; `none` models a raised conversion error. -/
def pyInt : Json → Option ℤ
  | .num q => some (pyTrunc q)
  | .bool b => some (if b then 1 else 0)
  | .str s => pyParseInt s
  | _ => none

/-- Python truthiness `bool(x)` of a JSON value. -/
def pyTruthy : Json → Bool
  | .null => false
  | .bool b => b
  | .num q => decide (q ≠ 0)
  | .str s => decide (s ≠ [])
  | .arr [] => false
  | .arr (_ :: _) => true
  | .obj [] => false
  | .obj (_ :: _) => true

/-- `str.lower()` (ASCII). -/
def pyLower (s : List Char) : List Char := s.map Char.toLower

/-! ## `normalize_telemetry` (hpcsim/adapter.py)

The ingest payload is a JSON object, modelled as an association list of
string keys to `Json` values.  `pick` scans the alias list and returns the
first value that is present and not `None`;  every conversion is guarded by
a `try/except` that falls back to the documented default. -/

/-- The payload dictionary. -/
abbrev Payload := List (List Char × Json)

/-- `payload[k]` when `k in payload`. -/
def dictGet (p : Payload) (k : List Char) : Option Json :=
  match p.find? (fun kv => kv.1 = k) with
  | some kv => some kv.2
  | none => none

/-- The alias scan `pick(key)`: the first alias present with a non-`None`
value. -/
def pick (p : Payload) : List (List Char) → Option Json
  | [] => none
  | k :: rest =>
    match dictGet p k with
    | some .null => pick p rest
    | some v => some v
    | none => pick p rest

/-- `clamp01(x, default)`: clamp a convertible value to `[0, 1]`, otherwise
the default. -/
def clamp01 (x : Json) (d : ℚ) : ℚ :=
  match pyFloat x with
  | some v => max 0 (min 1 v)
  | none => d

/-- Result of `normalize_telemetry`: the canonical telemetry dictionary.
Optional fields are present in the output dict only when `some`.
`track_name`/`driver_name` keep the picked JSON value (the source applies
`str()` to it; no claim inspects the converted text). -/
structure NormalizedTelemetry where
  lap : ℤ
  speed : ℚ
  throttle : ℚ
  brake : ℚ
  tire_compound : List Char
  fuel_level : ℚ
  ers : Option ℚ
  track_temp : Option ℚ
  rain_probability : Option ℚ
  total_laps : Option ℤ
  track_name : Option Json
  driver_name : Option Json
  current_position : Option ℤ
  tire_life_laps : Option ℤ
  rainfall : Option Bool

/-- `normalize_telemetry(payload)` (adapter.py, lines 6–150).  Total: every
conversion failure is locally recovered with the documented default. -/
def normalizeTelemetry (p : Payload) : NormalizedTelemetry :=
  let lap : ℤ := match pick p ["lap".toList, "Lap".toList, "LapNumber".toList, "lap_number".toList] with
    | some v => (pyInt v).getD 0
    | none => 0
  let speed : ℚ := match pick p ["speed".toList, "Speed".toList] with
    | some v => (pyFloat v).getD 0
    | none => 0
  let throttle : ℚ := match pick p ["throttle".toList, "Throttle".toList] with
    | some v => clamp01 v 0
    | none => 0
  let brake : ℚ := match pick p ["brake".toList, "Brake".toList, "Brakes".toList] with
    | some v => clamp01 v 0
    | none => 0
  let tire_compound : List Char :=
    match pick p ["tire_compound".toList, "Compound".toList, "TyreCompound".toList, "Tire".toList] with
    | some (.str s) => pyLower s
    | some _ => "medium".toList
    | none => "medium".toList
  let fuel_level : ℚ :=
    match pick p ["fuel_level".toList, "Fuel".toList, "FuelRel".toList, "FuelLevel".toList] with
    | some v => clamp01 v (1/2)
    | none => 1/2
  let ers : Option ℚ :=
    (pick p ["ers".toList, "ERS".toList, "ERSCharge".toList]).bind
      (fun v => (pyFloat v).map (fun q => max 0 (min 1 q)))
  let track_temp : Option ℚ :=
    (pick p ["track_temp".toList, "TrackTemp".toList, "track_temperature".toList]).bind pyFloat
  let rain_probability : Option ℚ :=
    (pick p ["rain_probability".toList, "RainProb".toList, "PrecipProb".toList]).bind
      (fun v => (pyFloat v).map (fun q => max 0 (min 1 q)))
  let total_laps : Option ℤ :=
    (pick p ["total_laps".toList, "TotalLaps".toList]).bind pyInt
  let track_name : Option Json :=
    (pick p ["track_name".toList, "TrackName".toList, "Circuit".toList]).bind
      (fun v => if pyTruthy v then some v else none)
  let driver_name : Option Json :=
    (pick p ["driver_name".toList, "DriverName".toList, "Driver".toList]).bind
      (fun v => if pyTruthy v then some v else none)
  let current_position : Option ℤ :=
    (pick p ["current_position".toList, "Position".toList]).bind pyInt
  let tire_life_laps : Option ℤ :=
    (pick p ["tire_life_laps".toList, "TireAge".toList, "tire_age".toList]).bind pyInt
  let rainfall : Option Bool :=
    (pick p ["rainfall".toList, "Rainfall".toList, "Rain".toList]).map pyTruthy
  { lap := lap, speed := speed, throttle := throttle, brake := brake,
    tire_compound := tire_compound, fuel_level := fuel_level, ers := ers,
    track_temp := track_temp, rain_probability := rain_probability,
    total_laps := total_laps, track_name := track_name,
    driver_name := driver_name, current_position := current_position,
    tire_life_laps := tire_life_laps, rainfall := rainfall }

/-! ## Bounded insertion-ordered stores

`cappedAppend` is the shared overflow behaviour of the repository's stores:
`collections.deque(maxlen=cap)` (`TelemetryBuffer._buffer`) and the `_recent`
list in `hpcsim/api.py` (`append` followed by `del _recent[:len-_MAX_RECENT]`)
both keep the most recent `cap` records, silently evicting the oldest. -/

/-- Append with capacity: drop the oldest entries once `cap` is exceeded. -/
def cappedAppend {α : Type} (cap : ℕ) (l : List α) (x : α) : List α :=
  let l' := l ++ [x]
  if cap < l'.length then l'.drop (l'.length - cap) else l'

/-! ## The enriched lap record (`EnrichedRecord`, hpcsim/api.py lines 27–35)

The per-lap enriched telemetry model shared by the enrichment service and the
AI layer: `lap`, `tire_degradation_rate` and `tire_cliff_risk` in `[0,1]`,
`pace_trend` in {improving, stable, declining}, `optimal_pit_window` an
ordered pair of lap numbers, and `performance_delta` in seconds.  The pit
window is declared as a pair (`List[int]` of length 2 in the source model;
the spec calls it an ordered pair), modelled here as `ℤ × ℤ`. -/

structure EnrichedRecord where
  lap : ℤ
  tire_degradation_rate : ℚ
  pace_trend : String
  tire_cliff_risk : ℚ
  optimal_pit_window : ℤ × ℤ
  performance_delta : ℚ
deriving DecidableEq, Repr

/-! ## Race context (models/input_models.py lines 20–51) -/

structure RaceInfo where
  track_name : String
  total_laps : ℤ
  current_lap : ℤ
  weather_condition : String
  track_temp_celsius : ℚ
deriving DecidableEq, Repr

structure DriverState where
  driver_name : String
  current_position : ℤ
  current_tire_compound : String
  tire_age_laps : ℤ
  fuel_remaining_percent : ℚ
deriving DecidableEq, Repr

structure Competitor where
  position : ℤ
  driver : String
  tire_compound : String
  tire_age_laps : ℤ
  gap_seconds : ℚ
deriving DecidableEq, Repr

structure RaceContext where
  race_info : RaceInfo
  driver_state : DriverState
  competitors : List Competitor
deriving DecidableEq, Repr

/-! ## The enrichment engine behind the ingest endpoint

`ingest_telemetry` (hpcsim/api.py lines 37–66) calls
`Enricher.enrich_lap_data(normalized)`.  That method is not present under
`src/` — `src/hpcsim/enrichment.py` holds only the legacy
`enrich`/`enrich_with_context` engine — while its caller (`api.py`), its
output model (`EnrichedRecord`, api.py lines 27–35), the repository's own
websocket test (`tests/test_websocket.py`) and the AI-layer prompt builder all
use its five-field output.  It is therefore modelled here from the
specification, §4.1. -/

/-- Per-session state of the modelled enrichment engine (spec §3
`EnricherState`): rolling lap-time and speed history capped at 10, best-lap
baseline, and the race-context fields carried across laps. -/
structure EnricherModelState where
  lapTimes : List ℚ
  speeds : List ℚ
  bestLap : Option ℚ
  totalLaps : ℤ
  trackName : String
  driverName : String
  currentPosition : ℤ
deriving DecidableEq, Repr

/-- Fresh engine state (defaults as in `EnricherState`,
hpcsim/enrichment.py lines 58–70). -/
def initialEnricherModelState : EnricherModelState :=
  { lapTimes := [], speeds := [], bestLap := none, totalLaps := 50,
    trackName := "Unknown Circuit", driverName := "Driver",
    currentPosition := 10 }

/-- Compound-specific base wear per lap (`_TIRES_BASE_WEAR`,
hpcsim/enrichment.py lines 49–55; unknown compounds fall back to medium). -/
def tiresBaseWear (c : List Char) : ℚ :=
  if c = ("soft".toList) then 12/1000
  else if c = ("medium".toList) then 8/1000
  else if c = ("hard".toList) then 6/1000
  else if c = ("inter".toList) then 15/1000
  else if c = ("wet".toList) then 1/50
  else 8/1000

/-- Modelled from the spec: compound-specific cliff lap (spec §4.1: soft 15,
medium 25, hard 35, intermediate 20, wet 18; unknown compound → medium). -/
def cliffLap (c : List Char) : ℤ :=
  if c = ("soft".toList) then 15
  else if c = ("medium".toList) then 25
  else if c = ("hard".toList) then 35
  else if c = ("inter".toList) ∨ c = ("intermediate".toList) then 20
  else if c = ("wet".toList) then 18
  else 25

/-- Mean of a list of rationals (0 for an empty list). -/
def listMean (l : List ℚ) : ℚ :=
  if l.length = 0 then 0 else l.sum / l.length

/-- Modelled from the spec: pace trend over the last 5 recorded lap times
(spec §4.1): "improving" if the mean of the second half is ≥ 0.5 s faster
than the first half, "declining" if ≥ 0.5 s slower, else "stable"; fewer
than 3 samples always gives "stable". -/
def paceTrendOf (lapTimes : List ℚ) : String :=
  let recent := lapTimes.drop (lapTimes.length - 5)
  if recent.length < 3 then "stable"
  else
    let h := recent.length / 2
    let firstMean := listMean (recent.take h)
    let secondMean := listMean (recent.drop h)
    if secondMean ≤ firstMean - 1/2 then "improving"
    else if firstMean + 1/2 ≤ secondMean then "declining"
    else "stable"

/-- Modelled from the spec: `Enricher.enrich_lap_data`, the per-lap analytics
engine of §4.1, absent from `src/`.  Consumes the normalized telemetry (plus
the optional raw `lap_time` field) and the session state; total by the §4.1
failure policy (missing temperature → 25°, unknown compound → medium base
rate, missing lap time recorded as no sample).  Returns the updated state,
the `EnrichedRecord`, and the constructed race context (competitor mock data
elided as an empty list). -/
def enrichLapData (st : EnricherModelState) (nt : NormalizedTelemetry)
    (lapTime : Option ℚ) : EnricherModelState × EnrichedRecord × RaceContext :=
  let lap := nt.lap
  let totalLaps := nt.total_laps.getD st.totalLaps
  let age : ℤ := nt.tire_life_laps.getD 0
  let temp : ℚ := nt.track_temp.getD 25
  -- degradation: base rate × lap-age × temperature multiplier × accelerating
  -- multiplier beyond 20 laps of age (+5 %/lap); clamped to [0, 1]
  let tempMult : ℚ := if 45 < temp then 6/5 else if temp < 20 then 9/10 else 1
  let accel : ℚ := if 20 < age then 1 + (1/20) * ((age : ℚ) - 20) else 1
  let deg : ℚ := max 0 (min 1 (tiresBaseWear nt.tire_compound * (age : ℚ) * tempMult * accel))
  -- cliff risk: 0 up to 5 laps before the compound cliff, 1 from 5 laps past
  -- it, linear in between
  let cliff := cliffLap nt.tire_compound
  let risk : ℚ :=
    if age ≤ cliff - 5 then 0
    else if cliff + 5 ≤ age then 1
    else ((age : ℚ) - ((cliff : ℚ) - 5)) / 10
  -- pit window: urgent when risk is high, otherwise from the remaining
  -- useful laps of the compound, capped at total_laps - 5
  let window : ℤ × ℤ :=
    if 7/10 < risk then (lap + 1, lap + 3)
    else if 2/5 < risk then (lap + 3, lap + 6)
    else
      let rem := max 0 (cliff - age)
      (min (lap + rem) (totalLaps - 5), min (lap + rem + 3) (totalLaps - 5))
  -- pace trend and performance delta from the recorded lap times
  let lapTimes' := match lapTime with
    | some t => cappedAppend 10 st.lapTimes t
    | none => st.lapTimes
  let trend := paceTrendOf lapTimes'
  let best' : Option ℚ := match st.bestLap, lapTime with
    | some b, some t => some (min b t)
    | none, some t => some t
    | b, none => b
  let delta : ℚ := match st.bestLap, lapTime with
    | some b, some t => b - t
    | _, _ => 0
  let record : EnrichedRecord :=
    { lap := lap, tire_degradation_rate := deg, pace_trend := trend,
      tire_cliff_risk := risk, optimal_pit_window := window,
      performance_delta := delta }
  let trackName := match nt.track_name with
    | some (.str s) => String.mk s
    | _ => st.trackName
  let driverName := match nt.driver_name with
    | some (.str s) => String.mk s
    | _ => st.driverName
  let position := nt.current_position.getD st.currentPosition
  let ctx : RaceContext :=
    { race_info :=
        { track_name := trackName, total_laps := totalLaps, current_lap := lap,
          weather_condition := if nt.rainfall.getD false then "Wet" else "Dry",
          track_temp_celsius := temp },
      driver_state :=
        { driver_name := driverName, current_position := position,
          current_tire_compound := String.mk nt.tire_compound,
          tire_age_laps := age,
          fuel_remaining_percent := nt.fuel_level * 100 },
      competitors := [] }
  let st' : EnricherModelState :=
    { lapTimes := lapTimes', speeds := cappedAppend 10 st.speeds nt.speed,
      bestLap := best', totalLaps := totalLaps, trackName := trackName,
      driverName := driverName, currentPosition := position }
  (st', record, ctx)

/-! ## The ingest endpoint (`ingest_telemetry`, hpcsim/api.py lines 37–66) -/

/-- Capacity of the `_recent` store (`_MAX_RECENT`). -/
def maxRecent : ℕ := 200

/-- Response of the ingest endpoint: the enriched record with its race
context, or the HTTP 400 `Failed to enrich` branch. -/
inductive IngestResult where
  | ok (enriched : EnrichedRecord) (ctx : RaceContext)
  | enrichFailed (detail : String)
deriving DecidableEq, Repr

/-- Service state of the enrichment API: the enricher session state and the
bounded `_recent` store. -/
structure ApiState where
  enr : EnricherModelState
  recent : List EnrichedRecord
deriving DecidableEq, Repr

/-- `ingest_telemetry(payload)`: normalize, enrich, append to `_recent`
(evicting beyond 200), best-effort forward, return the result synchronously.
`forwardFails` models the outcome of the optional downstream callback; it
never influences the response (the exception is swallowed). -/
def ingestTelemetry (st : ApiState) (payload : Payload) (forwardFails : Bool) :
    ApiState × IngestResult :=
  let nt := normalizeTelemetry payload
  let lapTime := (dictGet payload ("lap_time".toList)).bind pyFloat
  let (enr', record, ctx) := enrichLapData st.enr nt lapTime
  let recent' := cappedAppend maxRecent st.recent record
  let _ := forwardFails
  ({ enr := enr', recent := recent' }, .ok record ctx)

/-! ## The legacy stateful degradation metric
(`Enricher._compute_tire_degradation`, hpcsim/enrichment.py lines 315–327)

Each call computes the lap's wear from the compound base rate, a throttle-
and speed-dependent stress factor, and a track-temperature factor, adds it to
the cumulative wear, and caps the cumulative wear at 1.0 (from above only). -/

/-- The per-call inputs read by `_compute_tire_degradation` (extracted from
the telemetry payload by `Enricher.enrich`). -/
structure DegInput where
  throttle : ℚ
  speed : ℚ
  compound : List Char
  track_temp : Option ℚ
deriving DecidableEq, Repr

/-- One call of `_compute_tire_degradation`: returns the new cumulative wear
(which is also the value returned to the caller). -/
def computeTireDegradation (cum : ℚ) (inp : DegInput) : ℚ :=
  let baseWear := tiresBaseWear inp.compound
  let tempFactor : ℚ := match inp.track_temp with
    | some t => if 42 < t then 5/4 else if t < 15 then 9/10 else 1
    | none => 1
  let stress : ℚ := 1/2 + 1/2 * inp.throttle + 1/5 * max 0 ((inp.speed - 250) / 100)
  min 1 (cum + baseWear * stress * tempFactor)

/-- The sequence of degradation values emitted by consecutive calls within
one session, starting from cumulative wear `cum`. -/
def degValuesFrom (cum : ℚ) : List DegInput → List ℚ
  | [] => []
  | inp :: rest =>
    let c := computeTireDegradation cum inp
    c :: degValuesFrom c rest

/-! ## Telemetry history buffer
(`TelemetryBuffer`, utils/telemetry_buffer.py) and the pull endpoint
(`list_enriched`, hpcsim/api.py lines 79–82)

`get_latest(limit)` is `list(self._buffer)[-limit:]` reversed; the Python
tail slice `l[-limit:]` is modelled exactly, including its behaviour at
`limit = 0` (`l[-0:]` is `l[0:]`, the whole list) and at negative limits. -/

/-- Python `l[-limit:]` for an arbitrary integer `limit`. -/
def pyTailSlice {α : Type} (l : List α) (limit : ℤ) : List α :=
  if 0 < limit then l.drop (l.length - limit.toNat)
  else if limit = 0 then l
  else l.drop (-limit).toNat

/-- `TelemetryBuffer.get_latest(limit)`: the tail slice, newest first. -/
def getLatest {α : Type} (buf : List α) (limit : ℤ) : List α :=
  (pyTailSlice buf limit).reverse

/-- `TelemetryBuffer.add` (deque with `maxlen=100` by default). -/
def bufferAdd {α : Type} (buf : List α) (x : α) : List α :=
  cappedAppend 100 buf x

/-- `GET /enriched` (`list_enriched`): clamp the requested limit into
`[1, 200]` and return `_recent[-limit:]` (insertion order, no reversal). -/
def listEnriched {α : Type} (recent : List α) (limit : ℤ) : List α :=
  pyTailSlice recent (max 1 (min 200 limit))

/-! ## Strategies and the constraint validator
(models/input_models.py lines 54–64; utils/validators.py lines 11–79) -/

structure Strategy where
  strategy_id : ℤ
  strategy_name : String
  stop_count : ℤ
  pit_laps : List ℤ
  tire_sequence : List String
  brief_description : String
  risk_level : String
  key_assumption : String
deriving DecidableEq, Repr

/-- Python `sorted(l)` on integers: ascending sort.  (Python's sort is
stable, but on integers equal elements are indistinguishable, so any correct
ascending sort produces the same list.) -/
def pySorted (l : List ℤ) : List ℤ := List.insertionSort (· ≤ ·) l

/-- The pit-lap range loop of `validate_strategy`: the first pit lap at or
before the current lap, or at or beyond the race end, rejects the strategy.
(The source interpolates the offending values into the message; the
interpolated numbers are elided here.) -/
def pitLapRangeError (cur total : ℤ) : List ℤ → Option String
  | [] => none
  | p :: rest =>
    if p ≤ cur then some "Pit lap is in the past"
    else if total ≤ p then some "Pit lap is beyond race end"
    else pitLapRangeError cur total rest

/-- `StrategyValidator.validate_strategy(strategy, race_context)`
(validators.py lines 14–55): returns `(is_valid, error_message)`. -/
def validateStrategy (s : Strategy) (ctx : RaceContext) : Bool × String :=
  let cur := ctx.race_info.current_lap
  let total := ctx.race_info.total_laps
  match pitLapRangeError cur total s.pit_laps with
  | some e => (false, e)
  | none =>
    if 1 < s.pit_laps.length ∧ s.pit_laps ≠ pySorted s.pit_laps then
      (false, "Pit laps must be in ascending order")
    else if (s.pit_laps.length : ℤ) ≠ s.stop_count then
      (false, "Stop count does not match pit laps")
    else if (s.tire_sequence.length : ℤ) ≠ s.stop_count + 1 then
      (false, "Tire sequence length does not match stops + 1")
    else if s.tire_sequence.dedup.length < 2 then
      (false, "Must use at least 2 different tire compounds")
    else (true, "")

/-- `StrategyValidator.validate_strategies` (validators.py lines 57–79):
keep exactly the valid candidates, in order; rejections are logged, never
raised. -/
def validateStrategies (l : List Strategy) (ctx : RaceContext) : List Strategy :=
  l.filter (fun s => (validateStrategy s ctx).1)

/-! ## Control command synthesizer
(`generate_control_command`, ai_intelligence_layer/main.py lines 459–539)

Returns `(brake_bias, differential_slip)`.  The strategy argument is used
only for logging in the source and never influences the values; the
free-text reasoning strings are elided.  The record's pit window is the
ordered pair of the `EnrichedRecord` model (a two-element list on the wire,
always truthy), so the source's `if pit_window and ...` guard reduces to the
bounds test. -/

def generateControlCommand (lapNumber : ℤ) (strategy : Option Strategy)
    (t : EnrichedRecord) : ℤ × ℤ :=
  let _ := strategy
  let brakeBias : ℤ :=
    if 7/10 < t.tire_degradation_rate then 7
    else if 2/5 < t.tire_degradation_rate then 6
    else if t.tire_degradation_rate < 1/5 then 4
    else 5
  let diffSlip : ℤ :=
    if 7/10 < t.tire_cliff_risk then 7
    else if t.pace_trend = "declining" then 6
    else if t.pace_trend = "improving" then 4
    else 5
  if t.optimal_pit_window.1 ≤ lapNumber ∧ lapNumber ≤ t.optimal_pit_window.2 then
    (min (brakeBias + 1) 10, min (diffSlip + 1) 10)
  else (brakeBias, diffSlip)

/-! ## Resilient generation client
(`GeminiClient.generate_json`, services/gemini_client.py lines 30–118)

Each attempt is modelled by an oracle from the 1-based attempt index to
either a transport/API failure (with its message) or the raw response text.
A response text that fails structural parsing counts as a failed attempt and
mutates the prompt with the JSON-only emphasis; exhausting all attempts
raises an error carrying the last failure reason.  The demo-mode cache
(disabled by default) and the backoff sleeps are elided: they do not affect
the result value. -/

/-- Default `gemini_max_retries` (config.py line 42). -/
def geminiMaxRetriesDefault : ℕ := 3

/-- The emphasis appended on a parse-failure retry (`_add_json_emphasis`). -/
def jsonEmphasis : List Char :=
  ("\n\nIMPORTANT: You MUST return ONLY valid JSON. No markdown, no code blocks, no explanations. Just the raw JSON object.").toList

/-- `_add_json_emphasis`: append the emphasis unless already present. -/
def addJsonEmphasis (prompt : List Char) : List Char :=
  if jsonEmphasis <:+: prompt then prompt else prompt ++ jsonEmphasis

/-- Outcome of one attempt: `none` if the attempt succeeds (API call returns
text that parses), otherwise the failure reason recorded in `last_error`. -/
def attemptFailureReason (oracle : ℕ → Except (List Char) (List Char))
    (i : ℕ) : Option (List Char) :=
  match oracle i with
  | .error e => some (("API error: ").toList ++ e)
  | .ok text =>
    match parsePyJson text with
    | some _ => none
    | none => some (("JSON parsing error").toList)

/-- The terminal error message: `Failed after {n} attempts. Last error: {e}`. -/
def failMsg (maxRetries : ℕ) (lastError : List Char) : List Char :=
  ("Failed after ").toList ++ (toString maxRetries).toList ++
    (" attempts. Last error: ").toList ++ lastError

/-- The retry loop of `generate_json`, with `remaining` attempts left.
Returns the result together with the number of attempts consumed. -/
def genLoopGo (oracle : ℕ → Except (List Char) (List Char)) (maxRetries : ℕ) :
    ℕ → List Char → List Char → Except (List Char) Json × ℕ
  | 0, _, lastError => (.error (failMsg maxRetries lastError), 0)
  | n + 1, prompt, _ =>
    match oracle (maxRetries - n) with
    | .error e =>
      let r := genLoopGo oracle maxRetries n prompt (("API error: ").toList ++ e)
      (r.1, r.2 + 1)
    | .ok text =>
      match parsePyJson text with
      | some v => (.ok v, 1)
      | none =>
        let r := genLoopGo oracle maxRetries n (addJsonEmphasis prompt)
          (("JSON parsing error").toList)
        (r.1, r.2 + 1)

/-- `GeminiClient.generate_json`: up to `maxRetries` attempts; the initial
`last_error` is Python's `None`. -/
def generateJson (maxRetries : ℕ) (oracle : ℕ → Except (List Char) (List Char))
    (prompt : List Char) : Except (List Char) Json × ℕ :=
  genLoopGo oracle maxRetries maxRetries prompt (("None").toList)

/-! ## Strategy generator
(`StrategyGenerator.generate`, services/strategy_generator.py lines 25–87)

The post-generation stage: given the structurally parsed response, read the
`strategies` field, parse each candidate into a `Strategy` (a candidate whose
pydantic parse fails is logged and skipped), then filter through the
validator.  `candidates` carries each item's parse outcome. -/

def strategyGeneratorFinish (responseStrategies : Option (List (Except Unit Strategy)))
    (ctx : RaceContext) : Except String (List Strategy) :=
  match responseStrategies with
  | none => .error "Response missing strategies field"
  | some cands =>
    .ok (validateStrategies (cands.filterMap Except.toOption) ctx)

/-! ## The websocket session loop
(`websocket_pi_endpoint`, ai_intelligence_layer/main.py lines 300–456)

The session machine over the process-wide globals `telemetry_buffer`,
`last_control_command` and `current_race_context` (main.py lines 41–47):
every connected session reads and writes the same `ServiceState`.  A
telemetry event carries the parsed enriched record and race context (absent
fields model the incomplete-data branch) and the outcome of the
`strategy_generator.generate` call as an oracle.  `genCalls` counts the
generation calls the event triggers, `ended` whether the message loop
terminates. -/

structure ServiceState where
  buffer : List EnrichedRecord
  lastCommand : ℤ × ℤ
  raceContext : Option RaceContext
deriving DecidableEq, Repr

inductive WsEvent where
  | connect
  | telemetry (lapNumber : ℤ) (enriched : Option EnrichedRecord)
      (raceCtx : Option RaceContext) (gen : Except String (List Strategy))
  | ping
  | disconnectRequest
  | transportDrop

/-- Outbound session messages.  The free-text `reasoning` field of the
update message and the error detail strings are elided; every other field is
carried. -/
inductive OutMsg where
  | connectionEstablished
  | controlCommand (lap : ℤ) (brakeBias diffSlip : ℤ) (message : String)
  | controlCommandUpdate (lap : ℤ) (brakeBias diffSlip : ℤ)
      (strategyName : String) (totalStrategies : ℕ)
  | errorMsg (lap : Option ℤ)
  | pong
deriving DecidableEq, Repr

structure StepResult where
  state : ServiceState
  sent : List OutMsg
  genCalls : ℕ
  ended : Bool
deriving DecidableEq, Repr

/-- The acknowledgment message sent while generation is in flight. -/
def processingMsg : String := "Processing strategies (maintaining previous settings)..."

/-- The insufficient-data message (`Collecting data ({n}/3 laps)`). -/
def collectingDataMsg (n : ℕ) : String :=
  "Collecting data (" ++ toString n ++ "/3 laps)"

/-- One iteration of the session loop (or the connect / disconnect
transitions around it). -/
def wsStep (st : ServiceState) : WsEvent → StepResult
  | .connect =>
    -- on connect: clear the buffer, reset the last command to neutral
    { state := { buffer := [], lastCommand := (5, 5), raceContext := st.raceContext },
      sent := [.connectionEstablished], genCalls := 0, ended := false }
  | .ping => { state := st, sent := [.pong], genCalls := 0, ended := false }
  | .disconnectRequest =>
    -- graceful disconnect: leave the loop; the finally block clears the buffer
    { state := { buffer := [], lastCommand := st.lastCommand, raceContext := st.raceContext },
      sent := [], genCalls := 0, ended := true }
  | .transportDrop =>
    { state := { buffer := [], lastCommand := st.lastCommand, raceContext := st.raceContext },
      sent := [], genCalls := 0, ended := true }
  | .telemetry lapNumber enrichedOpt ctxOpt gen =>
    match enrichedOpt, ctxOpt with
    | some enr, some ctx =>
      let buffer' := bufferAdd st.buffer enr
      let bufferData := getLatest buffer' 10
      if 3 ≤ bufferData.length then
        let ack := OutMsg.controlCommand lapNumber st.lastCommand.1 st.lastCommand.2
          processingMsg
        match gen with
        | .ok strategies =>
          let top := strategies.head?
          let cmd := generateControlCommand lapNumber top enr
          let name := match top with
            | some s => s.strategy_name
            | none => "N/A"
          { state := { buffer := buffer', lastCommand := cmd, raceContext := some ctx },
            sent := [ack, .controlCommandUpdate lapNumber cmd.1 cmd.2 name strategies.length],
            genCalls := 1, ended := false }
        | .error _ =>
          -- generation failed: error is reported, previous command kept
          { state := { buffer := buffer', lastCommand := st.lastCommand, raceContext := some ctx },
            sent := [ack, .errorMsg (some lapNumber)], genCalls := 1, ended := false }
      else
        { state := { buffer := buffer', lastCommand := st.lastCommand, raceContext := some ctx },
          sent := [.controlCommand lapNumber 5 5 (collectingDataMsg bufferData.length)],
          genCalls := 0, ended := false }
    | _, _ =>
      -- incomplete data: logged warning, nothing sent
      { state := st, sent := [], genCalls := 0, ended := false }

/-- Run the shared-state machine over an arbitrary interleaving of events
(visible to it from any connected session, since the state is global). -/
def wsRun (st : ServiceState) : List WsEvent → ServiceState
  | [] => st
  | e :: rest => wsRun (wsStep st e).state rest

/-! # Claims -/

/-! ## C1 — the ingest endpoint always succeeds -/

/-- C1.  For every raw lap telemetry payload posted to the ingest endpoint,
normalization and enrichment succeed — malformed or missing fields are
replaced by the documented defaults rather than causing a failure — and the
endpoint returns the enriched record together with the constructed race
context synchronously; the `Failed to enrich` error branch is unreachable,
and the best-effort downstream forward never influences the response. -/
theorem C1_ingest_always_succeeds :
    (∀ (st : ApiState) (payload : Payload) (forwardFails : Bool),
      (ingestTelemetry st payload forwardFails).2 =
          IngestResult.ok
            (enrichLapData st.enr (normalizeTelemetry payload)
              ((dictGet payload ("lap_time".toList)).bind pyFloat)).2.1
            (enrichLapData st.enr (normalizeTelemetry payload)
              ((dictGet payload ("lap_time".toList)).bind pyFloat)).2.2
      ∧ ingestTelemetry st payload forwardFails = ingestTelemetry st payload (!forwardFails))
    ∧ normalizeTelemetry [] =
        { lap := 0, speed := 0, throttle := 0, brake := 0,
          tire_compound := ("medium".toList), fuel_level := 1/2, ers := none,
          track_temp := none, rain_probability := none, total_laps := none,
          track_name := none, driver_name := none, current_position := none,
          tire_life_laps := none, rainfall := none }
    ∧ (normalizeTelemetry [(("throttle".toList), Json.str ("abc".toList))]).throttle = 0 := by
  exact ⟨fun st payload forwardFails => ⟨rfl, rfl⟩, rfl, rfl⟩

/-! ## C2 — the control-command rule table -/

/-- C2.  For every lap number, top strategy, and latest enriched record, the
synthesizer chooses `brake_bias` by the degradation table (>0.7 → 7,
>0.4 → 6, <0.2 → 4, else 5) and `differential_slip` by the cliff/pace table
(cliff risk >0.7 → 7, "declining" → 6, "improving" → 4, else 5); when the
current lap lies inside the record's pit window both values are incremented
by 1 and capped at 10; both outputs are always integers in `[0, 10]`. -/
theorem C2_control_command_rule_table :
    ∀ (lapNumber : ℤ) (strategy : Option Strategy) (t : EnrichedRecord),
      generateControlCommand lapNumber strategy t =
        (let bb : ℤ :=
          if 7/10 < t.tire_degradation_rate then 7
          else if 2/5 < t.tire_degradation_rate then 6
          else if t.tire_degradation_rate < 1/5 then 4
          else 5
         let ds : ℤ :=
          if 7/10 < t.tire_cliff_risk then 7
          else if t.pace_trend = "declining" then 6
          else if t.pace_trend = "improving" then 4
          else 5
         if t.optimal_pit_window.1 ≤ lapNumber ∧ lapNumber ≤ t.optimal_pit_window.2 then
           (min (bb + 1) 10, min (ds + 1) 10)
         else (bb, ds))
      ∧ 0 ≤ (generateControlCommand lapNumber strategy t).1
      ∧ (generateControlCommand lapNumber strategy t).1 ≤ 10
      ∧ 0 ≤ (generateControlCommand lapNumber strategy t).2
      ∧ (generateControlCommand lapNumber strategy t).2 ≤ 10 := by
  intro lapNumber strategy t
  refine ⟨rfl, ?_, ?_, ?_, ?_⟩ <;>
    · unfold generateControlCommand
      split_ifs <;> simp

/-! ## C4 — buffer retrieval and capacity -/

/-- C4 counterexample.  As stated the claim fails twice: `get_latest(0)` on a
non-empty buffer returns the whole buffer (the Python slice `l[-0:]` is `l`),
not at most 0 records; and the pull endpoint returns the most recent records
in insertion order (`_recent[-limit:]` without reversal), not newest-first. -/
theorem C4_counterexample :
    (getLatest [(0 : ℕ)] 0).length = 1
    ∧ listEnriched [(0 : ℕ), 1] 2 = [0, 1]
    ∧ ([0, 1] : List ℕ) ≠ [1, 0] := by
  exact ⟨rfl, rfl, by decide⟩

/-- C4 amended.  For a requested count `n ≥ 1`, `get_latest(n)` returns the
at most `n` most recent records, newest first; the pull endpoint returns the
at most `min 200 (max 1 limit)` most recent records in insertion order
(oldest of those first); and each capped store holds at most its capacity,
evicting the oldest record on overflow. -/
theorem C4_buffer_retrieval_amended :
    (∀ (α : Type) (buf : List α) (n : ℤ), 1 ≤ n →
      getLatest buf n = buf.reverse.take n.toNat
      ∧ (getLatest buf n).length ≤ n.toNat)
    ∧ (∀ (α : Type) (recent : List α) (limit : ℤ),
        (listEnriched recent limit).length ≤ 200
        ∧ (listEnriched recent limit).reverse =
            recent.reverse.take (max 1 (min 200 limit)).toNat)
    ∧ (∀ (α : Type) (cap : ℕ) (l : List α) (x : α), l.length ≤ cap →
        (cappedAppend cap l x).length ≤ cap
        ∧ (0 < cap → l.length = cap → cappedAppend cap l x = l.tail ++ [x])) := by
  refine ⟨?_, ?_, ?_⟩
  · intro α buf n hn
    have hpos : (0 : ℤ) < n := by omega
    have heq : getLatest buf n = buf.reverse.take n.toNat := by
      unfold getLatest pyTailSlice
      rw [if_pos hpos, List.take_reverse]
    exact ⟨heq, by rw [heq]; simp⟩
  · intro α recent limit
    have hpos : (0 : ℤ) < max 1 (min 200 limit) := by omega
    have heq : listEnriched recent limit =
        recent.drop (recent.length - (max 1 (min 200 limit)).toNat) := by
      unfold listEnriched pyTailSlice
      rw [if_pos hpos]
    constructor
    · rw [heq]
      have : (max 1 (min 200 limit)).toNat ≤ 200 := by omega
      simp only [List.length_drop]
      omega
    · rw [heq, ← List.take_reverse]
  · intro α cap l x hlen
    constructor
    · simp only [cappedAppend]
      split_ifs with h
      · simp only [List.length_drop, List.length_append, List.length_singleton] at *
        omega
      · simp only [List.length_append, List.length_singleton] at *
        omega
    · intro hcap hfull
      simp only [cappedAppend]
      have hcond : cap < (l ++ [x]).length := by
        simp only [List.length_append, List.length_singleton]
        omega
      rw [if_pos hcond]
      have hdrop : (l ++ [x]).length - cap = 1 := by
        simp only [List.length_append, List.length_singleton]
        omega
      rw [hdrop]
      cases l with
      | nil => simp at hfull; omega
      | cons a l' => simp

/-- C4 witness: the amended retrieval and eviction facts at concrete inputs. -/
theorem C4_buffer_retrieval_amended_witness :
    getLatest [(0 : ℕ), 1, 2] 2 = [2, 1] ∧ cappedAppend 2 [(0 : ℕ), 1] 5 = [1, 5] := by
  have h := C4_buffer_retrieval_amended
  constructor
  · rw [(h.1 ℕ [0, 1, 2] 2 (by decide)).1]
    decide
  · rw [(h.2.2 ℕ 2 [0, 1] 5 (by decide)).2 (by decide) (by decide)]
    decide

/-! ## C5 — the strategy validator -/

/-- The pit-lap range loop accepts exactly the lists whose every element lies
strictly between the current lap and the race end. -/
theorem pitLapRangeError_eq_none_iff (cur total : ℤ) (l : List ℤ) :
    pitLapRangeError cur total l = none ↔ ∀ p ∈ l, cur < p ∧ p < total := by
  induction l with
  | nil => simp [pitLapRangeError]
  | cons p rest ih =>
    unfold pitLapRangeError
    split_ifs with h1 h2
    · simp only [List.mem_cons]
      constructor
      · intro h; cases h
      · intro h
        have := (h p (Or.inl rfl)).1
        omega
    · simp only [List.mem_cons]
      constructor
      · intro h; cases h
      · intro h
        have := (h p (Or.inl rfl)).2
        omega
    · rw [ih]
      simp only [List.mem_cons]
      constructor
      · intro h q hq
        rcases hq with rfl | hq
        · exact ⟨by omega, by omega⟩
        · exact h q hq
      · intro h q hq
        exact h q (Or.inr hq)

/-- A list of integers equals its ascending sort exactly when its consecutive
elements are non-decreasing. -/
theorem pySorted_eq_self_iff (l : List ℤ) :
    pySorted l = l ↔ l.Chain' (· ≤ ·) := by
  rw [List.chain'_iff_pairwise]
  constructor
  · intro h
    rw [← h]
    exact List.sorted_insertionSort _ l
  · intro h
    exact List.Sorted.insertionSort_eq h

/-- C5 counterexample.  The validator's order check uses Python `sorted`,
which is non-strict: the strategy with the duplicated pit lap 20 (stop count
2, three-compound tire sequence, current lap 10, 50 total laps) validates as
ok although its pit laps are not strictly ascending, refuting the claimed
equivalence. -/
theorem C5_counterexample :
    (validateStrategy
      { strategy_id := 1,
        strategy_name := "dup",
        stop_count := 2,
        pit_laps := [20, 20],
        tire_sequence := ["soft", "medium", "soft"],
        brief_description := "d",
        risk_level := "low",
        key_assumption := "k" }
      { race_info :=
          { track_name := "Monza",
            total_laps := 50,
            current_lap := 10,
            weather_condition := "Dry",
            track_temp_celsius := 30 },
        driver_state :=
          { driver_name := "D",
            current_position := 1,
            current_tire_compound := "medium",
            tire_age_laps := 0,
            fuel_remaining_percent := 50 },
        competitors := [] }).1 = true
    ∧ ¬ List.Chain' (· < ·) [(20 : ℤ), 20] := by
  exact ⟨by decide, by norm_num [List.chain'_cons]⟩

/-- C5 amended.  Single-strategy validation returns ok if and only if every
pit lap is strictly greater than the current lap and strictly less than the
total laps, the pit laps are non-decreasing (duplicates allowed — the source
compares against Python's non-strict `sorted`), the number of pit laps equals
`stop_count`, the tire sequence has length `stop_count + 1`, and the tire
sequence has at least 2 distinct compounds; batch validation never raises and
returns exactly the sublist of valid candidates, in their original order. -/
theorem C5_validator_amended :
    (∀ (s : Strategy) (ctx : RaceContext),
      (validateStrategy s ctx).1 = true ↔
        ((∀ p ∈ s.pit_laps,
            ctx.race_info.current_lap < p ∧ p < ctx.race_info.total_laps)
         ∧ s.pit_laps.Chain' (· ≤ ·)
         ∧ (s.pit_laps.length : ℤ) = s.stop_count
         ∧ (s.tire_sequence.length : ℤ) = s.stop_count + 1
         ∧ 2 ≤ s.tire_sequence.dedup.length))
    ∧ ∀ (l : List Strategy) (ctx : RaceContext),
        validateStrategies l ctx = l.filter (fun s => (validateStrategy s ctx).1) := by
  refine ⟨?_, fun l ctx => rfl⟩
  intro s ctx
  unfold validateStrategy
  rcases hr : pitLapRangeError ctx.race_info.current_lap ctx.race_info.total_laps s.pit_laps
    with - | e
  · have hrange := (pitLapRangeError_eq_none_iff _ _ _).mp hr
    simp only [hr]
    split_ifs with h1 h2 h3 h4
    · -- order check rejected: the pit laps differ from their sort
      simp only [Bool.false_eq_true, false_iff]
      rintro ⟨-, hchain, -, -, -⟩
      exact h1.2 ((pySorted_eq_self_iff _).mpr hchain).symm
    · simp only [Bool.false_eq_true, false_iff]
      rintro ⟨-, -, hc, -, -⟩
      exact h2 hc
    · simp only [Bool.false_eq_true, false_iff]
      rintro ⟨-, -, -, hc, -⟩
      exact h3 hc
    · simp only [Bool.false_eq_true, false_iff]
      rintro ⟨-, -, -, -, hc⟩
      omega
    · simp only [true_iff]
      refine ⟨hrange, ?_, by omega, by omega, by omega⟩
      rcases not_and_or.mp h1 with hshort | heq
      · rcases hl : s.pit_laps with - | ⟨a, l'⟩
        · exact List.chain'_nil
        · rcases l' with - | ⟨b, l''⟩
          · exact List.chain'_singleton a
          · exfalso
            rw [hl] at hshort
            simp at hshort
      · rw [not_not] at heq
        exact (pySorted_eq_self_iff _).mp heq.symm
  · simp only [hr]
    constructor
    · intro h
      simp at h
    · rintro ⟨hR, -⟩
      have := (pitLapRangeError_eq_none_iff _ _ _).mpr hR
      rw [hr] at this
      cases this

/-- C5 witness: the amended equivalence at a concrete valid strategy. -/
theorem C5_validator_amended_witness :
    (validateStrategy
      { strategy_id := 2,
        strategy_name := "two-stop",
        stop_count := 2,
        pit_laps := [20, 30],
        tire_sequence := ["soft", "medium", "soft"],
        brief_description := "d",
        risk_level := "low",
        key_assumption := "k" }
      { race_info :=
          { track_name := "Monza",
            total_laps := 50,
            current_lap := 10,
            weather_condition := "Dry",
            track_temp_celsius := 30 },
        driver_state :=
          { driver_name := "D",
            current_position := 1,
            current_tire_compound := "medium",
            tire_age_laps := 0,
            fuel_remaining_percent := 50 },
        competitors := [] }).1 = true := by
  exact (C5_validator_amended.1 _ _).mpr
    ⟨by decide, by norm_num [List.chain'_cons], by decide, by decide, by decide⟩

/-! ## C9 — monotonicity and range of the cumulative tire degradation -/

/-- C9 counterexample.  The claim quantifies over every input payload, but
`_compute_tire_degradation` clamps the cumulative wear only from above: a
payload with negative throttle (`{"throttle": -10, "speed": 0}` on medium
tires) makes the stress factor negative, and the very first emitted value is
-9/250 < 0 — outside `[0, 1]`. -/
theorem C9_counterexample :
    degValuesFrom 0
        [{ throttle := -10, speed := 250, compound := ("medium".toList),
           track_temp := none }] = [-9/250]
    ∧ ((-9 : ℚ)/250) < 0 := by
  have hbw : tiresBaseWear ("medium".toList) = 8/1000 := rfl
  constructor
  · simp only [degValuesFrom, computeTireDegradation, hbw]
    have hmax : max (0 : ℚ) ((250 - 250) / 100) = 0 := by norm_num
    rw [hmax]
    have hmin : min (1 : ℚ) (0 + 8/1000 * (1/2 + 1/2 * (-10) + 1/5 * 0) * 1) = -9/250 := by
      rw [min_eq_right] <;> norm_num
    rw [hmin]
  · norm_num

/-- The compound base wear is always positive. -/
theorem tiresBaseWear_pos (c : List Char) : 0 < tiresBaseWear c := by
  unfold tiresBaseWear
  split_ifs <;> norm_num

/-- One degradation step with non-negative throttle: the emitted value never
decreases below the previous cumulative wear and stays in `[0, 1]`. -/
theorem computeTireDegradation_step (cum : ℚ) (inp : DegInput)
    (hthr : 0 ≤ inp.throttle) (h0 : 0 ≤ cum) (h1 : cum ≤ 1) :
    cum ≤ computeTireDegradation cum inp
    ∧ 0 ≤ computeTireDegradation cum inp
    ∧ computeTireDegradation cum inp ≤ 1 := by
  have hbase := tiresBaseWear_pos inp.compound
  have hmax : (0 : ℚ) ≤ max 0 ((inp.speed - 250) / 100) := le_max_left 0 _
  have hstress : (0 : ℚ) ≤ 1/2 + 1/2 * inp.throttle + 1/5 * max 0 ((inp.speed - 250) / 100) := by
    nlinarith
  have htf : (0 : ℚ) < (match inp.track_temp with
      | some t => if 42 < t then (5 : ℚ)/4 else if t < 15 then 9/10 else 1
      | none => 1) := by
    rcases inp.track_temp with - | t
    · norm_num
    · dsimp only
      split_ifs <;> norm_num
  have hwear : (0 : ℚ) ≤ tiresBaseWear inp.compound *
      (1/2 + 1/2 * inp.throttle + 1/5 * max 0 ((inp.speed - 250) / 100)) *
      (match inp.track_temp with
        | some t => if 42 < t then (5 : ℚ)/4 else if t < 15 then 9/10 else 1
        | none => 1) := by
    apply mul_nonneg (mul_nonneg (le_of_lt hbase) hstress) (le_of_lt htf)
  unfold computeTireDegradation
  refine ⟨le_min h1 (by nlinarith), ?_, min_le_left _ _⟩
  have : cum ≤ min 1 (cum + tiresBaseWear inp.compound *
      ((1:ℚ)/2 + 1/2 * inp.throttle + 1/5 * max 0 ((inp.speed - 250) / 100)) *
      (match inp.track_temp with
        | some t => if 42 < t then (5 : ℚ)/4 else if t < 15 then 9/10 else 1
        | none => 1)) := le_min h1 (by nlinarith)
  calc (0 : ℚ) ≤ cum := h0
    _ ≤ _ := this

/-- The degradation sequence from any valid cumulative wear: chained
non-decreasing and within `[0, 1]`, for throttle-clean inputs. -/
theorem degValuesFrom_invariant (inputs : List DegInput) :
    ∀ (cum : ℚ), 0 ≤ cum → cum ≤ 1 → (∀ i ∈ inputs, 0 ≤ i.throttle) →
      (cum :: degValuesFrom cum inputs).Chain' (· ≤ ·)
      ∧ ∀ v ∈ degValuesFrom cum inputs, 0 ≤ v ∧ v ≤ 1 := by
  induction inputs with
  | nil =>
    intro cum h0 h1 hthr
    exact ⟨List.chain'_singleton cum, by simp [degValuesFrom]⟩
  | cons i rest ih =>
    intro cum h0 h1 hthr
    have hi := computeTireDegradation_step cum i (hthr i (by simp)) h0 h1
    have hrec := ih (computeTireDegradation cum i) hi.2.1 hi.2.2
      (fun j hj => hthr j (by simp [hj]))
    constructor
    · simp only [degValuesFrom]
      rw [List.chain'_cons]
      exact ⟨hi.1, hrec.1⟩
    · simp only [degValuesFrom, List.mem_cons]
      rintro v (rfl | hv)
      · exact ⟨hi.2.1, hi.2.2⟩
      · exact hrec.2 v hv

/-- C9 amended.  Across any sequence of enrichment calls within one session,
provided each payload's throttle is non-negative (as the ingest path's
normalization guarantees by clamping to `[0, 1]`), the emitted tire
degradation values are monotonically non-decreasing from call to call and
always lie within `[0, 1]`. -/
theorem C9_degradation_amended (inputs : List DegInput)
    (hthr : ∀ i ∈ inputs, 0 ≤ i.throttle) :
    (degValuesFrom 0 inputs).Chain' (· ≤ ·)
    ∧ ∀ v ∈ degValuesFrom 0 inputs, 0 ≤ v ∧ v ≤ 1 := by
  have h := degValuesFrom_invariant inputs 0 le_rfl (by norm_num) hthr
  exact ⟨h.1.tail, h.2⟩

/-! ## C6 — bounded retries, surfaced terminal error, degraded session -/

/-- The retry loop consumes at most the remaining number of attempts. -/
theorem genLoopGo_used_le (oracle : ℕ → Except (List Char) (List Char))
    (maxRetries : ℕ) :
    ∀ (n : ℕ) (prompt lastError : List Char),
      (genLoopGo oracle maxRetries n prompt lastError).2 ≤ n := by
  intro n
  induction n with
  | zero => intro prompt lastError; simp [genLoopGo]
  | succ m ih =>
    intro prompt lastError
    rcases horacle : oracle (maxRetries - m) with e | text
    · simp only [genLoopGo, horacle]
      exact Nat.succ_le_succ (ih _ _)
    · rcases hparse : parsePyJson text with - | v
      · simp only [genLoopGo, horacle, hparse]
        exact Nat.succ_le_succ (ih _ _)
      · simp [genLoopGo, horacle, hparse]

/-- If every remaining attempt fails, the loop exhausts them all and raises
the terminal error carrying the reason of the last attempt. -/
theorem genLoopGo_all_fail (oracle : ℕ → Except (List Char) (List Char))
    (maxRetries : ℕ) :
    ∀ (n : ℕ) (prompt lastError : List Char), 1 ≤ n → n ≤ maxRetries →
      (∀ i, maxRetries - n < i → i ≤ maxRetries → (attemptFailureReason oracle i).isSome) →
      genLoopGo oracle maxRetries n prompt lastError =
        (.error (failMsg maxRetries ((attemptFailureReason oracle maxRetries).getD [])), n) := by
  intro n
  induction n with
  | zero => intro prompt lastError h1; omega
  | succ m ih =>
    intro prompt lastError h1 hle hfail
    rcases Nat.eq_zero_or_pos m with rfl | hm
    · -- the final attempt: its failure reason becomes the terminal message
      have hidx := hfail maxRetries (by omega) le_rfl
      rcases horacle : oracle maxRetries with e | text
      · simp [genLoopGo, attemptFailureReason, horacle]
      · rcases hparse : parsePyJson text with - | v
        · simp [genLoopGo, attemptFailureReason, horacle, hparse]
        · exfalso
          simp [attemptFailureReason, horacle, hparse] at hidx
    · -- an intermediate attempt fails and the loop recurses
      have hidx := hfail (maxRetries - m) (by omega) (by omega)
      have hrec : ∀ i, maxRetries - m < i → i ≤ maxRetries →
          (attemptFailureReason oracle i).isSome := by
        intro i hi1 hi2
        exact hfail i (by omega) hi2
      rcases horacle : oracle (maxRetries - m) with e | text
      · simp only [genLoopGo, horacle]
        rw [ih _ _ (by omega) (by omega) hrec]
      · rcases hparse : parsePyJson text with - | v
        · simp only [genLoopGo, horacle, hparse]
          rw [ih _ _ (by omega) (by omega) hrec]
        · exfalso
          simp [attemptFailureReason, horacle, hparse] at hidx

/-- C6.  The generation client makes at most the configured number of
attempts (default 3); if every attempt fails it raises an error whose
message carries the last failure reason, never silently swallowing the
failure; and the websocket session catches a generation failure, emits an
error message to the client after the acknowledgment, leaves the last
control command unchanged, and continues its loop. -/
theorem C6_retry_and_session_degradation :
    geminiMaxRetriesDefault = 3
    ∧ (∀ (maxRetries : ℕ) (oracle : ℕ → Except (List Char) (List Char))
        (prompt : List Char),
        (generateJson maxRetries oracle prompt).2 ≤ maxRetries)
    ∧ (∀ (maxRetries : ℕ) (oracle : ℕ → Except (List Char) (List Char))
        (prompt : List Char), 1 ≤ maxRetries →
        (∀ i, 1 ≤ i → i ≤ maxRetries → (attemptFailureReason oracle i).isSome) →
        generateJson maxRetries oracle prompt =
          (.error (failMsg maxRetries ((attemptFailureReason oracle maxRetries).getD [])),
           maxRetries))
    ∧ (∀ (st : ServiceState) (lap : ℤ) (enr : EnrichedRecord) (ctx : RaceContext)
        (e : String),
        3 ≤ (getLatest (bufferAdd st.buffer enr) 10).length →
        (wsStep st (.telemetry lap (some enr) (some ctx) (.error e))).sent =
          [OutMsg.controlCommand lap st.lastCommand.1 st.lastCommand.2
            processingMsg,
           OutMsg.errorMsg (some lap)]
        ∧ (wsStep st (.telemetry lap (some enr) (some ctx) (.error e))).state.lastCommand =
            st.lastCommand
        ∧ (wsStep st (.telemetry lap (some enr) (some ctx) (.error e))).ended = false) := by
  refine ⟨rfl, ?_, ?_, ?_⟩
  · intro maxRetries oracle prompt
    exact genLoopGo_used_le oracle maxRetries maxRetries prompt _
  · intro maxRetries oracle prompt h1 hfail
    unfold generateJson
    exact genLoopGo_all_fail oracle maxRetries maxRetries prompt _ h1 le_rfl
      (fun i hi1 hi2 => hfail i (by omega) hi2)
  · intro st lap enr ctx e h
    simp only [wsStep]
    rw [if_pos h]
    exact ⟨rfl, rfl, rfl⟩

/-- C6 witness: the retry bound, the terminal error for an always-failing
oracle, and the degraded session step at concrete inputs. -/
theorem C6_retry_and_session_degradation_witness :
    generateJson 3 (fun _ => .error (("boom").toList)) (("p").toList) =
      (.error (failMsg 3 (("API error: boom").toList)), 3)
    ∧ (wsStep
        { buffer :=
            [{ lap := 1, tire_degradation_rate := 0, pace_trend := "stable",
               tire_cliff_risk := 0, optimal_pit_window := (10, 12),
               performance_delta := 0 },
             { lap := 2, tire_degradation_rate := 0, pace_trend := "stable",
               tire_cliff_risk := 0, optimal_pit_window := (10, 12),
               performance_delta := 0 }],
          lastCommand := (6, 4), raceContext := none }
        (.telemetry 3
          (some { lap := 3, tire_degradation_rate := 0, pace_trend := "stable",
                  tire_cliff_risk := 0, optimal_pit_window := (10, 12),
                  performance_delta := 0 })
          (some { race_info :=
                    { track_name := "Monza", total_laps := 50, current_lap := 3,
                      weather_condition := "Dry", track_temp_celsius := 30 },
                  driver_state :=
                    { driver_name := "D", current_position := 1,
                      current_tire_compound := "medium", tire_age_laps := 0,
                      fuel_remaining_percent := 50 },
                  competitors := [] })
          (.error "down"))).state.lastCommand = (6, 4) := by
  constructor
  · exact (C6_retry_and_session_degradation.2.2.1 3
      (fun _ => .error (("boom").toList)) (("p").toList) (by decide)
      (fun i hi1 hi2 => rfl))
  · exact (C6_retry_and_session_degradation.2.2.2 _ 3 _ _ "down" (by decide)).2.1

/-! ## C10 — every candidate rejected: no raise, empty list, N/A update -/

/-- C10.  When the generation response parses structurally (the `strategies`
field is present) but every candidate is rejected — its pydantic parse fails
or validation rejects it — strategy generation does not raise and returns
the empty strategy list; and the websocket session still emits a
`control_command_update` whose values are computed from the telemetry alone,
with the strategy name reported as `N/A`. -/
theorem C10_all_rejected_degrades_gracefully :
    (∀ (cands : List (Except Unit Strategy)) (ctx : RaceContext),
      strategyGeneratorFinish (some cands) ctx =
        .ok (validateStrategies (cands.filterMap Except.toOption) ctx))
    ∧ (∀ (cands : List (Except Unit Strategy)) (ctx : RaceContext),
        (∀ s ∈ cands.filterMap Except.toOption, (validateStrategy s ctx).1 = false) →
        strategyGeneratorFinish (some cands) ctx = .ok [])
    ∧ (∀ (st : ServiceState) (lap : ℤ) (enr : EnrichedRecord) (ctx : RaceContext),
        3 ≤ (getLatest (bufferAdd st.buffer enr) 10).length →
        (wsStep st (.telemetry lap (some enr) (some ctx) (.ok []))).sent =
          [OutMsg.controlCommand lap st.lastCommand.1 st.lastCommand.2
            processingMsg,
           OutMsg.controlCommandUpdate lap
            (generateControlCommand lap none enr).1
            (generateControlCommand lap none enr).2 "N/A" 0]
        ∧ (wsStep st (.telemetry lap (some enr) (some ctx) (.ok []))).ended = false) := by
  refine ⟨fun cands ctx => rfl, ?_, ?_⟩
  · intro cands ctx hall
    simp only [strategyGeneratorFinish, validateStrategies]
    congr 1
    rw [List.filter_eq_nil_iff]
    intro s hs
    simp [hall s hs]
  · intro st lap enr ctx h
    simp only [wsStep]
    rw [if_pos h]
    exact ⟨rfl, rfl⟩

/-- C10 witness: one unparseable candidate and one invalid strategy yield the
empty list without raising, and the session still emits the `N/A` update. -/
theorem C10_all_rejected_degrades_gracefully_witness :
    strategyGeneratorFinish
      (some [Except.error (),
             Except.ok
               { strategy_id := 1, strategy_name := "bad", stop_count := 2,
                 pit_laps := [5], tire_sequence := ["soft", "medium", "hard"],
                 brief_description := "b", risk_level := "low",
                 key_assumption := "k" }])
      { race_info :=
          { track_name := "Monza", total_laps := 50, current_lap := 10,
            weather_condition := "Dry", track_temp_celsius := 30 },
        driver_state :=
          { driver_name := "D", current_position := 1,
            current_tire_compound := "medium", tire_age_laps := 0,
            fuel_remaining_percent := 50 },
        competitors := [] } = .ok [] := by
  exact C10_all_rejected_degrades_gracefully.2.1 _ _ (by decide)

/-! ## C7 — the three-lap scenario in a fresh session -/

/-- C7.  In a freshly connected session receiving three consecutive valid
telemetry messages (laps 1–3), each of the first two messages produces
exactly one neutral (5, 5) control command and no generation call; the third
message triggers exactly one generation call, preceded by an immediate
acknowledgment carrying the previous command's values (still the neutral
(5, 5) of the fresh session), the acknowledgment being delivered before the
eventual update message. -/
theorem C7_three_lap_scenario :
    ∀ (st : ServiceState) (r1 r2 r3 : EnrichedRecord) (ctx : RaceContext)
      (g1 g2 : Except String (List Strategy)) (strats : List Strategy),
      (wsStep (wsStep st .connect).state (.telemetry 1 (some r1) (some ctx) g1)).sent =
        [OutMsg.controlCommand 1 5 5 (collectingDataMsg 1)]
      ∧ (wsStep (wsStep st .connect).state (.telemetry 1 (some r1) (some ctx) g1)).genCalls = 0
      ∧ (wsStep (wsStep (wsStep st .connect).state
            (.telemetry 1 (some r1) (some ctx) g1)).state
            (.telemetry 2 (some r2) (some ctx) g2)).sent =
          [OutMsg.controlCommand 2 5 5 (collectingDataMsg 2)]
      ∧ (wsStep (wsStep (wsStep st .connect).state
            (.telemetry 1 (some r1) (some ctx) g1)).state
            (.telemetry 2 (some r2) (some ctx) g2)).genCalls = 0
      ∧ (wsStep (wsStep (wsStep (wsStep st .connect).state
            (.telemetry 1 (some r1) (some ctx) g1)).state
            (.telemetry 2 (some r2) (some ctx) g2)).state
            (.telemetry 3 (some r3) (some ctx) (.ok strats))).genCalls = 1
      ∧ (wsStep (wsStep (wsStep (wsStep st .connect).state
            (.telemetry 1 (some r1) (some ctx) g1)).state
            (.telemetry 2 (some r2) (some ctx) g2)).state
            (.telemetry 3 (some r3) (some ctx) (.ok strats))).sent =
          [OutMsg.controlCommand 3 5 5
            processingMsg,
           OutMsg.controlCommandUpdate 3
            (generateControlCommand 3 strats.head? r3).1
            (generateControlCommand 3 strats.head? r3).2
            (match strats.head? with
              | some s => s.strategy_name
              | none => "N/A")
            strats.length] := by
  intro st r1 r2 r3 ctx g1 g2 strats
  have h0 : (wsStep st .connect).state =
      { buffer := [], lastCommand := (5, 5), raceContext := st.raceContext } := rfl
  have h1 : wsStep { buffer := [], lastCommand := (5, 5), raceContext := st.raceContext }
      (.telemetry 1 (some r1) (some ctx) g1) =
      { state := { buffer := [r1], lastCommand := (5, 5), raceContext := some ctx },
        sent := [OutMsg.controlCommand 1 5 5 (collectingDataMsg 1)],
        genCalls := 0, ended := false } := by
    cases g1 <;> rfl
  have h2 : wsStep { buffer := [r1], lastCommand := (5, 5), raceContext := some ctx }
      (.telemetry 2 (some r2) (some ctx) g2) =
      { state := { buffer := [r1, r2], lastCommand := (5, 5), raceContext := some ctx },
        sent := [OutMsg.controlCommand 2 5 5 (collectingDataMsg 2)],
        genCalls := 0, ended := false } := by
    cases g2 <;> rfl
  have h3 : wsStep { buffer := [r1, r2], lastCommand := (5, 5), raceContext := some ctx }
      (.telemetry 3 (some r3) (some ctx) (.ok strats)) =
      { state := { buffer := [r1, r2, r3],
                   lastCommand := generateControlCommand 3 strats.head? r3,
                   raceContext := some ctx },
        sent := [OutMsg.controlCommand 3 5 5 processingMsg,
                 OutMsg.controlCommandUpdate 3
                  (generateControlCommand 3 strats.head? r3).1
                  (generateControlCommand 3 strats.head? r3).2
                  (match strats.head? with
                    | some s => s.strategy_name
                    | none => "N/A")
                  strats.length],
        genCalls := 1, ended := false } := rfl
  rw [h0, h1, h2, h3]
  exact ⟨rfl, rfl, rfl, rfl, rfl, rfl⟩

/-! ## C3 — session state is shared, not isolated -/

/-- C3 counterexample.  The telemetry buffer and last command are
module-level globals shared by all sessions: after session A connects and
pushes one record, a connect by session B (the third event of the
interleaving) clears the shared buffer, so A's buffer contents change from
`[r]` to `[]` — refuting the claimed isolation. -/
theorem C3_counterexample :
    (wsRun { buffer := [], lastCommand := (5, 5), raceContext := none }
      [WsEvent.connect,
       WsEvent.telemetry 1
         (some { lap := 1, tire_degradation_rate := 0, pace_trend := "stable",
                 tire_cliff_risk := 0, optimal_pit_window := (10, 12),
                 performance_delta := 0 })
         (some { race_info :=
                   { track_name := "Monza", total_laps := 50, current_lap := 1,
                     weather_condition := "Dry", track_temp_celsius := 30 },
                 driver_state :=
                   { driver_name := "D", current_position := 1,
                     current_tire_compound := "medium", tire_age_laps := 0,
                     fuel_remaining_percent := 50 },
                 competitors := [] })
         (.ok []),
       WsEvent.connect]).buffer = []
    ∧ (wsRun { buffer := [], lastCommand := (5, 5), raceContext := none }
        [WsEvent.connect,
         WsEvent.telemetry 1
           (some { lap := 1, tire_degradation_rate := 0, pace_trend := "stable",
                   tire_cliff_risk := 0, optimal_pit_window := (10, 12),
                   performance_delta := 0 })
           (some { race_info :=
                     { track_name := "Monza", total_laps := 50, current_lap := 1,
                       weather_condition := "Dry", track_temp_celsius := 30 },
                   driver_state :=
                     { driver_name := "D", current_position := 1,
                       current_tire_compound := "medium", tire_age_laps := 0,
                       fuel_remaining_percent := 50 },
                   competitors := [] })
           (.ok [])]).buffer =
        [{ lap := 1, tire_degradation_rate := 0, pace_trend := "stable",
           tire_cliff_risk := 0, optimal_pit_window := (10, 12),
           performance_delta := 0 }]
    ∧ ([] : List EnrichedRecord) ≠
        [{ lap := 1, tire_degradation_rate := 0, pace_trend := "stable",
           tire_cliff_risk := 0, optimal_pit_window := (10, 12),
           performance_delta := 0 }] := by
  exact ⟨rfl, rfl, by simp⟩

/-- C3 amended.  Concurrently connected sessions share one process-wide
mutable state (the global telemetry buffer and last-command value): a
telemetry message from any session appends to the single shared buffer, and
a connect (resp. disconnect, transport drop) by any session clears that
shared buffer — connect also resetting the shared last command to neutral —
so one session's connect, disconnect, or telemetry does change the buffer
contents and command baseline observed by every other session. -/
theorem C3_shared_state_amended :
    ∀ (st : ServiceState),
      (wsStep st .connect).state.buffer = []
      ∧ (wsStep st .connect).state.lastCommand = (5, 5)
      ∧ (wsStep st .disconnectRequest).state.buffer = []
      ∧ (wsStep st .transportDrop).state.buffer = []
      ∧ ∀ (lap : ℤ) (r : EnrichedRecord) (ctx : RaceContext)
          (gen : Except String (List Strategy)),
          (wsStep st (.telemetry lap (some r) (some ctx) gen)).state.buffer =
            bufferAdd st.buffer r := by
  intro st
  refine ⟨rfl, rfl, rfl, rfl, ?_⟩
  intro lap r ctx gen
  cases gen <;>
    · simp only [wsStep]
      split_ifs <;> rfl

/-- C9 witness: the amended monotonicity and range at a concrete two-lap
input sequence. -/
theorem C9_degradation_amended_witness :
    (degValuesFrom 0
      [{ throttle := 0, speed := 200, compound := ("soft".toList), track_temp := none },
       { throttle := 1, speed := 300, compound := ("soft".toList), track_temp := some 50 }]).Chain'
        (· ≤ ·) := by
  exact (C9_degradation_amended _ (by decide)).1

/-! ## C8 — code-fence stripping before structural parsing -/

/-- A JSON start character is neither a backtick nor the letter `j`. -/
theorem startChar_ne_fence {c : Char} (h : startChar c = true) :
    c ≠ backquoteChar ∧ c ≠ 'j' := by
  constructor <;> rintro rfl <;> revert h <;> decide

/-- Stripping a leading whitespace character commutes with `pyStrip`. -/
theorem pyStrip_cons_ws (a : Char) (l : List Char) (h : pyWs a = true) :
    pyStrip (a :: l) = pyStrip l := by
  simp [pyStrip, List.dropWhile_cons, h]

/-- Stripping a trailing whitespace character commutes with `pyStrip`. -/
theorem pyStrip_append_ws (l : List Char) (a : Char) (h : pyWs a = true) :
    pyStrip (l ++ [a]) = pyStrip l := by
  unfold pyStrip
  rw [List.dropWhile_append]
  rcases hdw : l.dropWhile pyWs with - | ⟨b, bs⟩
  · simp [List.dropWhile_cons, h]
  · simp [List.reverse_append, List.dropWhile_cons, h]

/-- A list with non-whitespace first and last characters is fixed by
`pyStrip`. -/
theorem pyStrip_id_of_ends (a b : Char) (m : List Char)
    (ha : pyWs a = false) (hb : pyWs b = false) :
    pyStrip (a :: (m ++ [b])) = a :: (m ++ [b]) := by
  unfold pyStrip
  rw [List.dropWhile_cons]
  simp only [ha, Bool.false_eq_true, if_false]
  have h1 : (a :: (m ++ [b])).reverse = b :: (m.reverse ++ [a]) := by
    simp
  rw [h1, List.dropWhile_cons]
  simp only [hb, Bool.false_eq_true, if_false]
  rw [← h1, List.reverse_reverse]

/-- `pyStrip` produces a prefix of the leading-whitespace-stripped list. -/
theorem pyStrip_isPrefix (l : List Char) :
    pyStrip l <+: l.dropWhile pyWs := by
  unfold pyStrip
  have hsuffix : (l.dropWhile pyWs).reverse.dropWhile pyWs <:+ (l.dropWhile pyWs).reverse :=
    List.dropWhile_suffix pyWs
  rw [← List.reverse_prefix] at hsuffix
  simpa using hsuffix

/-- The head of a non-empty `dropWhile` result fails the predicate. -/
theorem dropWhile_head_not (p : Char → Bool) (l : List Char) (c : Char) (r : List Char)
    (h : l.dropWhile p = c :: r) : p c = false := by
  induction l with
  | nil => simp at h
  | cons a l' ih =>
    rw [List.dropWhile_cons] at h
    split_ifs at h with hp
    · exact ih h
    · cases h
      simpa using hp

/-- The head of a non-empty `pyStrip` result fails `pyWs`. -/
theorem pyStrip_head_not_ws (l : List Char) (c : Char) (r : List Char)
    (h : pyStrip l = c :: r) : pyWs c = false := by
  obtain ⟨rest, hrest⟩ := pyStrip_isPrefix l
  rw [h] at hrest
  exact dropWhile_head_not pyWs l c (r ++ rest) (by rw [← hrest, List.cons_append])

/-- JSON whitespace is Python whitespace. -/
theorem jsonWs_le_pyWs (c : Char) (h : pyWs c = false) : jsonWs c = false := by
  simp only [pyWs, Bool.or_eq_false_iff, decide_eq_false_iff_not] at h
  simp only [jsonWs, Bool.or_eq_false_iff, decide_eq_false_iff_not]
  tauto

/-- `p` is a Boolean prefix of `p ++ r`. -/
theorem isPrefixOf_append_self (p r : List Char) : p.isPrefixOf (p ++ r) = true := by
  induction p with
  | nil => simp
  | cons a as ih => simp [List.isPrefixOf_cons₂, ih]

/-- Lists with different head characters are not Boolean prefixes. -/
theorem isPrefixOf_cons_ne (a b : Char) (as bs : List Char) (h : a ≠ b) :
    (a :: as).isPrefixOf (b :: bs) = false := by
  simp [List.isPrefixOf_cons₂, h]

/-- `s` is a Boolean suffix of `u ++ s`. -/
theorem isSuffixOf_append_self (s u : List Char) : s.isSuffixOf (u ++ s) = true := by
  unfold List.isSuffixOf
  rw [List.reverse_append]
  exact isPrefixOf_append_self s.reverse u.reverse

/-- Dropping the appended fence: `(x ++ y)[:-|y|] = x`. -/
theorem pyDropRight_append (x y : List Char) : pyDropRight y.length (x ++ y) = x := by
  unfold pyDropRight
  rw [List.length_append, Nat.add_sub_cancel, List.take_left]

/-- Fence stripping of the newline `json`-tagged wrapping, for any text. -/
theorem stripCodeFence_json_nl (t : List Char) :
    stripCodeFence (("```json\n".toList) ++ t ++ ("\n```".toList)) = pyStrip t := by
  have hshape : ("```json\n".toList) ++ t ++ ("\n```".toList) =
      backquoteChar :: ((("``json\n".toList) ++ t ++ ("\n``".toList)) ++ [backquoteChar]) := by
    (simp; rfl)
  have hstrip : pyStrip (("```json\n".toList) ++ t ++ ("\n```".toList)) =
      ("```json\n".toList) ++ t ++ ("\n```".toList) := by
    rw [hshape]
    exact pyStrip_id_of_ends backquoteChar backquoteChar _ (by decide) (by decide)
  have hpre : ("```json\n".toList) ++ t ++ ("\n```".toList) =
      ("```json".toList) ++ ('\n' :: (t ++ ("\n```".toList))) := by
    simp
  have hb1 : pyStartsWith (("```json\n".toList) ++ t ++ ("\n```".toList))
      ("```json".toList) = true := by
    unfold pyStartsWith
    rw [hpre]
    exact isPrefixOf_append_self _ _
  have hdrop7 : (("```json\n".toList) ++ t ++ ("\n```".toList)).drop 7 =
      '\n' :: (t ++ ("\n```".toList)) := by
    rw [hpre, show (7 : ℕ) = ("```json".toList).length from rfl, List.drop_left]
  have hb2 : pyStartsWith ('\n' :: (t ++ ("\n```".toList))) ("```".toList) = false := by
    unfold pyStartsWith
    exact isPrefixOf_cons_ne backquoteChar '\n' _ _ (by decide)
  have hsuf : '\n' :: (t ++ ("\n```".toList)) =
      (('\n' :: t) ++ ['\n']) ++ ("```".toList) := by
    simp
  have hb3 : pyEndsWith ('\n' :: (t ++ ("\n```".toList))) ("```".toList) = true := by
    unfold pyEndsWith
    rw [hsuf]
    exact isSuffixOf_append_self _ _
  have hdr : pyDropRight 3 ('\n' :: (t ++ ("\n```".toList))) = ('\n' :: t) ++ ['\n'] := by
    rw [hsuf, show (3 : ℕ) = ("```".toList).length from rfl, pyDropRight_append]
  simp only [stripCodeFence]
  rw [hstrip, hb1, if_pos (show (true : Bool) = true from rfl), hdrop7, hb2,
    if_neg (show ¬((false : Bool) = true) from by decide), hb3,
    if_pos (show (true : Bool) = true from rfl), hdr, List.cons_append,
    pyStrip_cons_ws '\n' _ (by decide), pyStrip_append_ws _ '\n' (by decide)]

/-- Fence stripping of the newline untagged wrapping, for any text. -/
theorem stripCodeFence_plain_nl (t : List Char) :
    stripCodeFence (("```\n".toList) ++ t ++ ("\n```".toList)) = pyStrip t := by
  have hshape : ("```\n".toList) ++ t ++ ("\n```".toList) =
      backquoteChar :: ((("``\n".toList) ++ t ++ ("\n``".toList)) ++ [backquoteChar]) := by
    (simp; rfl)
  have hstrip : pyStrip (("```\n".toList) ++ t ++ ("\n```".toList)) =
      ("```\n".toList) ++ t ++ ("\n```".toList) := by
    rw [hshape]
    exact pyStrip_id_of_ends backquoteChar backquoteChar _ (by decide) (by decide)
  have hpre4 : ("```\n".toList) ++ t ++ ("\n```".toList) =
      backquoteChar :: backquoteChar :: backquoteChar :: '\n' :: (t ++ ("\n```".toList)) := by
    (simp; rfl)
  have hb1 : pyStartsWith (("```\n".toList) ++ t ++ ("\n```".toList))
      ("```json".toList) = false := by
    unfold pyStartsWith
    rw [hpre4, show ("```json".toList) = backquoteChar :: backquoteChar :: backquoteChar :: 'j' :: ("son".toList) from rfl]
    simp only [List.isPrefixOf_cons₂, beq_self_eq_true, Bool.true_and]
    rw [show (('j' : Char) == '\n') = false from rfl, Bool.false_and]
  have hpre3 : ("```\n".toList) ++ t ++ ("\n```".toList) =
      ("```".toList) ++ ('\n' :: (t ++ ("\n```".toList))) := by
    simp
  have hb2 : pyStartsWith (("```\n".toList) ++ t ++ ("\n```".toList))
      ("```".toList) = true := by
    unfold pyStartsWith
    rw [hpre3]
    exact isPrefixOf_append_self _ _
  have hdrop3 : (("```\n".toList) ++ t ++ ("\n```".toList)).drop 3 =
      '\n' :: (t ++ ("\n```".toList)) := by
    rw [hpre3, show (3 : ℕ) = ("```".toList).length from rfl, List.drop_left]
  have hsuf : '\n' :: (t ++ ("\n```".toList)) =
      (('\n' :: t) ++ ['\n']) ++ ("```".toList) := by
    simp
  have hb3 : pyEndsWith ('\n' :: (t ++ ("\n```".toList))) ("```".toList) = true := by
    unfold pyEndsWith
    rw [hsuf]
    exact isSuffixOf_append_self _ _
  have hdr : pyDropRight 3 ('\n' :: (t ++ ("\n```".toList))) = ('\n' :: t) ++ ['\n'] := by
    rw [hsuf, show (3 : ℕ) = ("```".toList).length from rfl, pyDropRight_append]
  simp only [stripCodeFence]
  rw [hstrip, hb1, if_neg (show ¬((false : Bool) = true) from by decide), hb2,
    if_pos (show (true : Bool) = true from rfl), hdrop3, hb3,
    if_pos (show (true : Bool) = true from rfl), hdr, List.cons_append,
    pyStrip_cons_ws '\n' _ (by decide), pyStrip_append_ws _ '\n' (by decide)]

/-- Fence stripping of the tight wrappings, when the text's first character
is neither a backtick nor `j`. -/
theorem stripCodeFence_tight (a : Char) (t' : List Char)
    (haBt : a ≠ backquoteChar) (haJ : a ≠ 'j') :
    stripCodeFence (("```json".toList) ++ (a :: t') ++ ("```".toList)) =
      pyStrip (a :: t')
    ∧ stripCodeFence (("```".toList) ++ (a :: t') ++ ("```".toList)) =
      pyStrip (a :: t') := by
  constructor
  · have hshape : ("```json".toList) ++ (a :: t') ++ ("```".toList) =
        backquoteChar :: ((("``json".toList) ++ (a :: t') ++ ("``".toList)) ++ [backquoteChar]) := by
      (simp; rfl)
    have hstrip : pyStrip (("```json".toList) ++ (a :: t') ++ ("```".toList)) =
        ("```json".toList) ++ (a :: t') ++ ("```".toList) := by
      rw [hshape]
      exact pyStrip_id_of_ends backquoteChar backquoteChar _ (by decide) (by decide)
    have hpre : ("```json".toList) ++ (a :: t') ++ ("```".toList) =
        ("```json".toList) ++ (a :: (t' ++ ("```".toList))) := by
      simp
    have hb1 : pyStartsWith (("```json".toList) ++ (a :: t') ++ ("```".toList))
        ("```json".toList) = true := by
      unfold pyStartsWith
      rw [hpre]
      exact isPrefixOf_append_self _ _
    have hdrop7 : (("```json".toList) ++ (a :: t') ++ ("```".toList)).drop 7 =
        a :: (t' ++ ("```".toList)) := by
      rw [hpre, show (7 : ℕ) = ("```json".toList).length from rfl, List.drop_left]
    have hb2 : pyStartsWith (a :: (t' ++ ("```".toList))) ("```".toList) = false := by
      unfold pyStartsWith
      exact isPrefixOf_cons_ne backquoteChar a _ _ (Ne.symm haBt)
    have hsuf : a :: (t' ++ ("```".toList)) = (a :: t') ++ ("```".toList) := by
      simp
    have hb3 : pyEndsWith (a :: (t' ++ ("```".toList))) ("```".toList) = true := by
      unfold pyEndsWith
      rw [hsuf]
      exact isSuffixOf_append_self _ _
    have hdr : pyDropRight 3 (a :: (t' ++ ("```".toList))) = a :: t' := by
      rw [hsuf, show (3 : ℕ) = ("```".toList).length from rfl, pyDropRight_append]
    simp only [stripCodeFence]
    rw [hstrip, hb1, if_pos (show (true : Bool) = true from rfl), hdrop7, hb2,
      if_neg (show ¬((false : Bool) = true) from by decide), hb3,
      if_pos (show (true : Bool) = true from rfl), hdr]
  · have hshape : ("```".toList) ++ (a :: t') ++ ("```".toList) =
        backquoteChar :: ((("``".toList) ++ (a :: t') ++ ("``".toList)) ++ [backquoteChar]) := by
      (simp; rfl)
    have hstrip : pyStrip (("```".toList) ++ (a :: t') ++ ("```".toList)) =
        ("```".toList) ++ (a :: t') ++ ("```".toList) := by
      rw [hshape]
      exact pyStrip_id_of_ends backquoteChar backquoteChar _ (by decide) (by decide)
    have hpre4 : ("```".toList) ++ (a :: t') ++ ("```".toList) =
        backquoteChar :: backquoteChar :: backquoteChar :: a :: (t' ++ ("```".toList)) := by
      (simp; rfl)
    have hb1 : pyStartsWith (("```".toList) ++ (a :: t') ++ ("```".toList))
        ("```json".toList) = false := by
      unfold pyStartsWith
      rw [hpre4, show ("```json".toList) = backquoteChar :: backquoteChar :: backquoteChar :: 'j' :: ("son".toList) from rfl]
      simp only [List.isPrefixOf_cons₂, beq_self_eq_true, Bool.true_and]
      have hja : (('j' : Char) == a) = false := by
        rw [beq_eq_false_iff_ne]
        exact Ne.symm haJ
      rw [hja, Bool.false_and]
    have hpre3 : ("```".toList) ++ (a :: t') ++ ("```".toList) =
        ("```".toList) ++ (a :: (t' ++ ("```".toList))) := by
      simp
    have hb2 : pyStartsWith (("```".toList) ++ (a :: t') ++ ("```".toList))
        ("```".toList) = true := by
      unfold pyStartsWith
      rw [hpre3]
      exact isPrefixOf_append_self _ _
    have hdrop3 : (("```".toList) ++ (a :: t') ++ ("```".toList)).drop 3 =
        a :: (t' ++ ("```".toList)) := by
      rw [hpre3, show (3 : ℕ) = ("```".toList).length from rfl, List.drop_left]
    have hsuf : a :: (t' ++ ("```".toList)) = (a :: t') ++ ("```".toList) := by
      simp
    have hb3 : pyEndsWith (a :: (t' ++ ("```".toList))) ("```".toList) = true := by
      unfold pyEndsWith
      rw [hsuf]
      exact isSuffixOf_append_self _ _
    have hdr : pyDropRight 3 (a :: (t' ++ ("```".toList))) = a :: t' := by
      rw [hsuf, show (3 : ℕ) = ("```".toList).length from rfl, pyDropRight_append]
    simp only [stripCodeFence]
    rw [hstrip, hb1, if_neg (show ¬((false : Bool) = true) from by decide), hb2,
      if_pos (show (true : Bool) = true from rfl), hdrop3, hb3,
      if_pos (show (true : Bool) = true from rfl), hdr]

/-- From a structurally parsing text: its stripped form starts with a JSON
start character, and its own first character is either whitespace or that
same start character. -/
theorem jsonLoads_head_facts (t : List Char) (v : Json)
    (h : jsonLoads (pyStrip t) = some v) :
    ∃ a t', t = a :: t' ∧ a ≠ backquoteChar ∧ a ≠ 'j' := by
  have hne : pyStrip t ≠ [] := by
    intro hnil
    rw [hnil] at h
    simp [jsonLoads, skipJsonWs] at h
  rcases hu : pyStrip t with - | ⟨c, r⟩
  · exact absurd hu hne
  have hcw : pyWs c = false := pyStrip_head_not_ws t c r hu
  have hskip : skipJsonWs (c :: r) = c :: r := by
    unfold skipJsonWs
    rw [List.dropWhile_cons]
    simp [jsonWs_le_pyWs c hcw]
  have hstart : startChar c = true := by
    by_contra hsc
    have hfalse : startChar c = false := by simpa using hsc
    rw [hu] at h
    simp only [jsonLoads, hskip, hfalse] at h
    simp at h
  have hfence := startChar_ne_fence hstart
  rcases ht : t with - | ⟨a, t'⟩
  · rw [ht] at hu
    simp [pyStrip] at hu
  refine ⟨a, t', rfl, ?_⟩
  by_cases haw : pyWs a = true
  · constructor <;> rintro rfl <;> revert haw <;> decide
  · -- the first character survives stripping: it is the start character
    have hdw : t.dropWhile pyWs = a :: t' := by
      rw [ht, List.dropWhile_cons]
      simp [haw]
    obtain ⟨rest, hrest⟩ := pyStrip_isPrefix t
    rw [hu, hdw] at hrest
    have : c = a := by
      have := congrArg (fun l => l.head?) hrest
      simpa using this
    rw [← this]
    exact hfence

/-- C8 counterexample.  The claim admits an arbitrary language tag, but the
client strips only a ` ```json ` or bare ` ``` ` fence: the text `{}` parses
structurally, yet wrapped in a fence tagged `txt` the tag survives stripping
and parsing fails. -/
theorem C8_counterexample :
    jsonLoads (("\x7b\x7d").toList) = some (.obj [])
    ∧ parsePyJson (("```txt\n\x7b\x7d\n```").toList) = none := by
  exact ⟨rfl, rfl⟩

/-- C8 amended.  For every response text that parses structurally, wrapping
it in a leading and trailing triple-backtick code fence with the `json`
language tag or with no tag (the only fences `_parse_json` strips) — with or
without the conventional newlines — parses to exactly the same structured
value as the unwrapped text.  Wrapping with any other language tag is not
stripped (see the counterexample). -/
theorem C8_fence_stripping_amended :
    ∀ (t : List Char) (v : Json), jsonLoads (pyStrip t) = some v →
      parsePyJson (("```json".toList) ++ t ++ ("```".toList)) = some v
      ∧ parsePyJson (("```json\n".toList) ++ t ++ ("\n```".toList)) = some v
      ∧ parsePyJson (("```".toList) ++ t ++ ("```".toList)) = some v
      ∧ parsePyJson (("```\n".toList) ++ t ++ ("\n```".toList)) = some v := by
  intro t v h
  obtain ⟨a, t', rfl, haBt, haJ⟩ := jsonLoads_head_facts t v h
  have htight := stripCodeFence_tight a t' haBt haJ
  unfold parsePyJson
  rw [htight.1, htight.2, stripCodeFence_json_nl, stripCodeFence_plain_nl]
  exact ⟨h, h, h, h⟩

/-- C8 witness: a fenced response with the `json` tag parses to the same
value as the unwrapped text. -/
theorem C8_fence_stripping_amended_witness :
    parsePyJson (("```json\n".toList) ++ ("[true]".toList) ++ ("\n```".toList)) =
      some (.arr [.bool true]) := by
  exact (C8_fence_stripping_amended ("[true]".toList) (.arr [.bool true]) rfl).2.1

end HPCSim
